import Mathlib

/-!
Verification of the Bayesian change-point analysis core
(`src/change_point_model.py` of the brent-oil-analysis repository).

The Python code is shallowly embedded:

* float values that the claims manipulate exactly (posterior draws,
  summary statistics, thresholds) are modelled as rationals `ℚ`;
  a decimal float literal such as `0.02` is read as the rational `1/50`;
* NumPy's silent IEEE-754 behaviour for zero denominators and empty
  windows (suppressed warnings, lines 13 and 318 of the source) is
  modelled by the type `NpQ` (finite / +inf / -inf / NaN) with the
  corresponding arithmetic; the standard deviation, which involves a
  real square root, lives in the companion type `NpR` over `ℝ`;
* Python `int(x)` is truncation toward zero (`npTruncQ`), and NumPy
  `astype(int)` performs the same truncation;
* Python list/array indexing and slicing (including negative indices
  and the IndexError case, modelled as `none`) are `pyIndex` and
  `pySlice`;
* `scipy.stats.mode` returns the smallest most-frequent value
  (`modeOf`), `np.median` sorts and takes the middle (`medianQ`).

Fields of returned dictionaries become structure fields with the same
names.  The `hdi_95` fields, computed by the external `arviz` library,
are outside the embedding; no claim refers to them.
-/

namespace BrentOil

/-- Truncation toward zero, the semantics of Python `int(x)` on a float
and of NumPy `astype(int)`. -/
def npTruncQ (q : ℚ) : ℤ := if 0 ≤ q then ⌊q⌋ else ⌈q⌉

/-- Rounding to the nearest integer (half away from zero upward); used
only on the specification side of claims that speak about "rounded"
indices.  The source never rounds: it truncates. -/
def roundNearest (q : ℚ) : ℤ := ⌊q + 1/2⌋

/-- Python indexing `l[i]` on a list, with negative-index wraparound and
IndexError modelled as `none`. -/
def pyIndex (l : List ℕ) (i : ℤ) : Option ℕ :=
  if 0 ≤ i ∧ i < (l.length : ℤ) then l.get? i.toNat
  else if -(l.length : ℤ) ≤ i ∧ i < 0 then l.get? ((l.length : ℤ) + i).toNat
  else none

/-- Normalisation of one slice endpoint, as in CPython and NumPy basic
slicing: negative endpoints count from the end, all endpoints are
clipped to `[0, n]`. -/
def pySliceIdx (n : ℕ) (i : ℤ) : ℕ :=
  if i < 0 then (max 0 ((n : ℤ) + i)).toNat else min i.toNat n

/-- Python slicing `l[a:b]` (step 1). -/
def pySlice {α : Type} (l : List α) (a b : ℤ) : List α :=
  (l.take (pySliceIdx l.length b)).drop (pySliceIdx l.length a)

/-- Half-open index-range window `[a, b)` of a list — the specification's
description of the impact windows. -/
def specWindow {α : Type} (l : List α) (a b : ℕ) : List α :=
  (l.drop a).take (b - a)

/-- Arithmetic mean, `np.mean` on a nonempty array (empty arrays are
handled separately, by `npMeanQ`). -/
def meanQ (l : List ℚ) : ℚ := l.sum / l.length

/-- Insertion of an element into a sorted list. -/
def insertSorted (x : ℚ) : List ℚ → List ℚ
  | [] => [x]
  | y :: ys => if x ≤ y then x :: y :: ys else y :: insertSorted x ys

/-- Ascending insertion sort (the multiset-sort underlying `np.median`). -/
def sortQ (l : List ℚ) : List ℚ := l.foldr insertSorted []

/-- Median as computed by `np.median`: sort, take the middle element
(odd length) or the average of the two middle elements (even length). -/
def medianQ (l : List ℚ) : ℚ :=
  let s := sortQ l
  let k := l.length
  if k % 2 = 1 then s.getD (k / 2) 0
  else (s.getD (k / 2 - 1) 0 + s.getD (k / 2) 0) / 2

/-- Mode as computed by `scipy.stats.mode`: the most frequent value,
ties broken toward the smallest value.  Works on the raw values exactly
as the source does (line 230), with no rounding beforehand. -/
def modeOf {α : Type} [DecidableEq α] [LinearOrder α] (l : List α) (dflt : α) : α :=
  l.foldl
    (fun b x =>
      if l.count b < l.count x ∨ (l.count x = l.count b ∧ x < b) then x else b)
    (l.headD dflt)

/-- Mode of a rational pool (`scipy.stats.mode` on the flattened draws). -/
def modeQ (l : List ℚ) : ℚ := modeOf l 0

/-- Cumulative sums, `pm.math.cumsum`: entry `i` is the sum of the first
`i+1` inputs. -/
def cumsumQ (l : List ℚ) : List ℚ := (l.scanl (· + ·) 0).tail

/-! ### NumPy values with IEEE-754 special results

`NpQ` carries exactly representable (rational) finite values together
with the special values `+inf`, `-inf`, `nan` that NumPy produces
silently (the module disables warnings at import, source line 13).
Signed zeros and overflow are not modelled; no claim depends on them. -/

/-- A NumPy double: finite (rational) value or a special value. -/
inductive NpQ : Type
  | fin (x : ℚ)
  | pinf
  | ninf
  | nan
deriving DecidableEq, Repr

/-- A NumPy double holding a real (possibly irrational) value, used for
standard deviations, which involve a square root. -/
inductive NpR : Type
  | fin (x : ℝ)
  | pinf
  | ninf
  | nan

/-- Subtraction of NumPy doubles. -/
def npSubQ : NpQ → NpQ → NpQ
  | NpQ.nan, _ => NpQ.nan
  | _, NpQ.nan => NpQ.nan
  | NpQ.fin x, NpQ.fin y => NpQ.fin (x - y)
  | NpQ.fin _, NpQ.pinf => NpQ.ninf
  | NpQ.fin _, NpQ.ninf => NpQ.pinf
  | NpQ.pinf, NpQ.fin _ => NpQ.pinf
  | NpQ.ninf, NpQ.fin _ => NpQ.ninf
  | NpQ.pinf, NpQ.pinf => NpQ.nan
  | NpQ.ninf, NpQ.ninf => NpQ.nan
  | NpQ.pinf, NpQ.ninf => NpQ.pinf
  | NpQ.ninf, NpQ.pinf => NpQ.ninf

/-- Division of NumPy doubles: a zero denominator yields a signed
infinity (or NaN for 0/0), silently. -/
def npDivQ : NpQ → NpQ → NpQ
  | NpQ.nan, _ => NpQ.nan
  | _, NpQ.nan => NpQ.nan
  | NpQ.fin x, NpQ.fin y =>
      if y = 0 then
        if 0 < x then NpQ.pinf else if x < 0 then NpQ.ninf else NpQ.nan
      else NpQ.fin (x / y)
  | NpQ.fin _, NpQ.pinf => NpQ.fin 0
  | NpQ.fin _, NpQ.ninf => NpQ.fin 0
  | NpQ.pinf, NpQ.fin y => if 0 ≤ y then NpQ.pinf else NpQ.ninf
  | NpQ.ninf, NpQ.fin y => if 0 ≤ y then NpQ.ninf else NpQ.pinf
  | NpQ.pinf, NpQ.pinf => NpQ.nan
  | NpQ.pinf, NpQ.ninf => NpQ.nan
  | NpQ.ninf, NpQ.pinf => NpQ.nan
  | NpQ.ninf, NpQ.ninf => NpQ.nan

/-- Multiplication of NumPy doubles. -/
def npMulQ : NpQ → NpQ → NpQ
  | NpQ.nan, _ => NpQ.nan
  | _, NpQ.nan => NpQ.nan
  | NpQ.fin x, NpQ.fin y => NpQ.fin (x * y)
  | NpQ.fin x, NpQ.pinf =>
      if 0 < x then NpQ.pinf else if x < 0 then NpQ.ninf else NpQ.nan
  | NpQ.fin x, NpQ.ninf =>
      if 0 < x then NpQ.ninf else if x < 0 then NpQ.pinf else NpQ.nan
  | NpQ.pinf, NpQ.fin y =>
      if 0 < y then NpQ.pinf else if y < 0 then NpQ.ninf else NpQ.nan
  | NpQ.ninf, NpQ.fin y =>
      if 0 < y then NpQ.ninf else if y < 0 then NpQ.pinf else NpQ.nan
  | NpQ.pinf, NpQ.pinf => NpQ.pinf
  | NpQ.pinf, NpQ.ninf => NpQ.ninf
  | NpQ.ninf, NpQ.pinf => NpQ.ninf
  | NpQ.ninf, NpQ.ninf => NpQ.pinf

/-- Mean of a NumPy array: `nan` on an empty array (a suppressed
RuntimeWarning in the source), the arithmetic mean otherwise. -/
def npMeanQ : List ℚ → NpQ
  | [] => NpQ.nan
  | x :: xs => NpQ.fin (meanQ (x :: xs))

/-- Population variance (`ddof = 0`, NumPy's default). -/
def popVarQ (l : List ℚ) : ℚ :=
  ((l.map (fun x => (x - meanQ l) ^ 2)).sum) / l.length

/-- Standard deviation of the window as a real number. -/
noncomputable def stdQR (l : List ℚ) : ℝ := Real.sqrt ((popVarQ l : ℚ) : ℝ)

/-- NumPy `std`: `nan` on an empty array, the population standard
deviation otherwise. -/
noncomputable def npStdR : List ℚ → NpR
  | [] => NpR.nan
  | x :: xs => NpR.fin (stdQR (x :: xs))

/-- Subtraction on real-valued NumPy doubles. -/
noncomputable def npSubR : NpR → NpR → NpR
  | NpR.nan, _ => NpR.nan
  | _, NpR.nan => NpR.nan
  | NpR.fin x, NpR.fin y => NpR.fin (x - y)
  | NpR.fin _, NpR.pinf => NpR.ninf
  | NpR.fin _, NpR.ninf => NpR.pinf
  | NpR.pinf, NpR.fin _ => NpR.pinf
  | NpR.ninf, NpR.fin _ => NpR.ninf
  | NpR.pinf, NpR.pinf => NpR.nan
  | NpR.ninf, NpR.ninf => NpR.nan
  | NpR.pinf, NpR.ninf => NpR.pinf
  | NpR.ninf, NpR.pinf => NpR.ninf

/-- Division of a rational-valued NumPy double by a real-valued one
(mean change divided by a standard deviation). -/
noncomputable def npDivQR : NpQ → NpR → NpR
  | NpQ.nan, _ => NpR.nan
  | _, NpR.nan => NpR.nan
  | NpQ.fin x, NpR.fin y =>
      if y = 0 then
        if 0 < x then NpR.pinf else if x < 0 then NpR.ninf else NpR.nan
      else NpR.fin ((x : ℝ) / y)
  | NpQ.fin _, NpR.pinf => NpR.fin 0
  | NpQ.fin _, NpR.ninf => NpR.fin 0
  | NpQ.pinf, NpR.fin y => if 0 ≤ y then NpR.pinf else NpR.ninf
  | NpQ.ninf, NpR.fin y => if 0 ≤ y then NpR.ninf else NpR.pinf
  | NpQ.pinf, NpR.pinf => NpR.nan
  | NpQ.pinf, NpR.ninf => NpR.nan
  | NpQ.ninf, NpR.pinf => NpR.nan
  | NpQ.ninf, NpR.ninf => NpR.nan

/-! ### Model configuration (source lines 18-50) -/

/-- A prior-configuration dictionary entry of `self.config`, e.g.
`{'distribution': 'uniform', 'lower': 0, 'upper': n_obs}`. -/
structure PriorSpec : Type where
  distribution : String
  params : List (String × ℚ)
deriving DecidableEq, Repr

/-- Sampler settings of `self.config['sampling']`. -/
structure SamplingConfig : Type where
  draws : ℕ
  tune : ℕ
  chains : ℕ
  target_accept : ℚ
deriving DecidableEq, Repr

/-- Convergence thresholds of `self.config['convergence']`. -/
structure ConvergenceConfig : Type where
  rhat_threshold : ℚ
  ess_threshold : ℚ
deriving DecidableEq, Repr

/-- The model configuration dictionary `self.config`. -/
structure ModelConfig : Type where
  model_type : String
  tau_prior : PriorSpec
  mu_prior : PriorSpec
  sigma_prior : PriorSpec
  sampling : SamplingConfig
  convergence : ConvergenceConfig
deriving DecidableEq, Repr

/-- The default configuration built in `__init__` (source lines 34-41),
parameterised by the number of observations. -/
def default_config (n_obs : ℕ) : ModelConfig where
  model_type := "single_change_point"
  tau_prior := ⟨"uniform", [("lower", 0), ("upper", (n_obs : ℚ))]⟩
  mu_prior := ⟨"normal", [("mu", 0), ("sigma", 1)]⟩
  sigma_prior := ⟨"halfnormal", [("sigma", 1)]⟩
  sampling := ⟨3000, 1000, 4, 99/100⟩
  convergence := ⟨101/100, 400⟩

/-! ### Model builders (source lines 52-126) -/

/-- A prior distribution node of the probabilistic model graph. -/
inductive Dist : Type
  | normal (mu sigma : ℚ)
  | exponential (rate : ℚ)
  | halfNormal (sigma : ℚ)
  | dirichlet (alpha : List ℚ)
deriving DecidableEq, Repr

/-- The single-change-point model graph of
`build_single_change_point_model` (source lines 52-80): the five prior
nodes together with the observed data.  The deterministic
smooth-transition mean `mu1*(1-w) + mu2*w` with
`w = sigmoid((t - tau)/k)` is a symbolic function of these nodes and
carries no further parameters, so it is not represented separately. -/
structure SingleCPModel : Type where
  n_obs : ℕ
  tau : Dist
  k : Dist
  mu1 : Dist
  mu2 : Dist
  sigma : Dist
  observed : List ℚ
deriving DecidableEq, Repr

/-- The builder of the single-change-point model.  It reads
`self.n_obs` and `self.data`; the configuration is part of the object
state (`self.config`) and is passed here to make its non-use provable —
the method never touches it, every prior is hard-coded
(source lines 58-71). -/
def build_single_change_point_model (data : List ℚ) (_config : ModelConfig) :
    SingleCPModel where
  n_obs := data.length
  tau := Dist.normal ((data.length : ℚ) / 2) ((data.length : ℚ) / 10)
  k := Dist.exponential (1/5)
  mu1 := Dist.normal 0 (1/50)
  mu2 := Dist.normal 0 (1/50)
  sigma := Dist.halfNormal (1/20)
  observed := data

/-- The multiple-change-point model graph of
`build_multiple_change_points_model` (source lines 83-126).
`taus_dim` and `mus_dim` record the shapes of the `taus` Dirichlet and
`mus` Normal vectors; `changepoints_dim` the shape of the deterministic
`changepoints = cumsum(taus * n).astype(int)` vector. -/
structure MultiCPModel : Type where
  n_changepoints : ℕ
  n_obs : ℕ
  taus : Dist
  taus_dim : ℕ
  changepoints_dim : ℕ
  mus : Dist
  mus_dim : ℕ
  sigma : Dist
  observed : List ℚ
deriving DecidableEq, Repr

/-- The deterministic `changepoints` transform of a single `taus` draw
(source line 95-98): the cumulative sum of the Dirichlet fractions
scaled by `n`, cast to integers (truncation toward zero). -/
def resolvedChangepoints (taus : List ℚ) (n : ℕ) : List ℤ :=
  (cumsumQ (taus.map (fun a => a * (n : ℚ)))).map npTruncQ

/-- The builder of the multiple-change-point model (source lines
83-126): `taus ~ Dirichlet(ones(n_changepoints + 1))`, so both `taus`
and its cumulative sum `changepoints` have `n_changepoints + 1`
components. -/
def build_multiple_change_points_model (data : List ℚ) (n_changepoints : ℕ) :
    MultiCPModel where
  n_changepoints := n_changepoints
  n_obs := data.length
  taus := Dist.dirichlet (List.replicate (n_changepoints + 1) 1)
  taus_dim := n_changepoints + 1
  changepoints_dim := n_changepoints + 1
  mus := Dist.normal 0 1
  mus_dim := n_changepoints + 1
  sigma := Dist.halfNormal 1
  observed := data

/-! ### The `sample` dispatcher (source lines 128-151) -/

/-- The typed error raised before sampling when the model type is not
recognised (`ValueError(f"Unknown model type: ...")`, source line 151);
the `ConfigError` of the specification's taxonomy. -/
inductive ConfigError : Type
  | unknownModelType (s : String)
deriving DecidableEq, Repr

/-- A model built by `sample` before sampling begins. -/
inductive BuiltModel : Type
  | single (m : SingleCPModel)
  | multiple (m : MultiCPModel)
deriving DecidableEq, Repr

/-- The model-construction phase of `sample` (source lines 144-151):
dispatch on `model_type`, building the corresponding model, or raise
before any sampling starts.  The MCMC run itself (`pm.sample`, line
162) happens strictly after this dispatch and only in the `ok` cases,
so an `error` result means no model was constructed and no sampling
ran. -/
def sample (data : List ℚ) (config : ModelConfig) (model_type : String)
    (n_changepoints : ℕ) : Except ConfigError BuiltModel :=
  if model_type = "single" then
    Except.ok (BuiltModel.single (build_single_change_point_model data config))
  else if model_type = "multiple" then
    Except.ok (BuiltModel.multiple
      (build_multiple_change_points_model data n_changepoints))
  else
    Except.error (ConfigError.unknownModelType model_type)

/-! ### Convergence diagnostics (source lines 172-202) -/

/-- One row of the `az.summary` table, one per model parameter. -/
structure SummaryRow : Type where
  r_hat : ℚ
  ess_bulk : ℚ
  mcse_mean : ℚ
  sd : ℚ
deriving DecidableEq, Repr

/-- The maximum of a pandas Series: `none` (NaN) on an empty series. -/
def seriesMax (l : List ℚ) : Option ℚ :=
  match l with
  | [] => none
  | x :: xs => some (xs.foldl max x)

/-- The minimum of a pandas Series: `none` (NaN) on an empty series. -/
def seriesMin (l : List ℚ) : Option ℚ :=
  match l with
  | [] => none
  | x :: xs => some (xs.foldl min x)

/-- Comparison against a pandas aggregate; comparisons with NaN are
false. -/
def pandasLt (a : Option ℚ) (b : ℚ) : Bool :=
  match a with
  | none => false
  | some x => decide (x < b)

/-- Comparison against a pandas aggregate; comparisons with NaN are
false. -/
def pandasGt (a : Option ℚ) (b : ℚ) : Bool :=
  match a with
  | none => false
  | some x => decide (b < x)

/-- The dictionary returned by `check_convergence` (source lines
184-202). -/
structure Diagnostics : Type where
  rhat_max : Option ℚ
  rhat_converged : Bool
  ess_min : Option ℚ
  ess_sufficient : Bool
  trace_plots_ok : Bool
  mcse_ratio_max : Option ℚ
deriving DecidableEq, Repr

/-- The convergence check (source lines 172-202), a pure function of
the `az.summary` table and the configured thresholds. -/
def check_convergence (summary : List SummaryRow) (config : ModelConfig) :
    Diagnostics where
  rhat_max := seriesMax (summary.map (fun r => r.r_hat))
  rhat_converged :=
    pandasLt (seriesMax (summary.map (fun r => r.r_hat)))
      config.convergence.rhat_threshold
  ess_min := seriesMin (summary.map (fun r => r.ess_bulk))
  ess_sufficient :=
    pandasGt (seriesMin (summary.map (fun r => r.ess_bulk)))
      config.convergence.ess_threshold
  trace_plots_ok := true
  mcse_ratio_max := seriesMax (summary.map (fun r => r.mcse_mean / r.sd))

/-! ### Posterior summarizer (source lines 204-268)

Calendar dates are modelled as natural-number identifiers; `dates` is
the `self.dates` index, in 1:1 correspondence with sample positions. -/

/-- The dictionary returned by `get_change_point_posterior` for the
single-change-point model (source lines 233-248).  The `hdi_95` fields,
produced by the external `az.hdi`, are outside the embedding. -/
structure SingleCPPosterior : Type where
  samples : List ℚ
  tau_dates : List (Option ℕ)
  mean : ℤ
  median : ℤ
  mode : ℤ
  mean_date : Option ℕ
  median_date : Option ℕ
  mode_date : Option ℕ
deriving DecidableEq, Repr

/-- The single-change-point branch of `get_change_point_posterior`
(source lines 216-248): `tau_mean = int(tau_samples.mean())`,
`tau_median = int(np.median(tau_samples))`,
`tau_mode = int(stats.mode(tau_samples)[0])` — Python `int()` truncates
toward zero, and `stats.mode` acts on the raw, unrounded draws.  Each
date field is `dates[idx] if idx < len(dates) else dates[-1]`; a failed
lookup (negative index below `-len(dates)`) is `none`. -/
def get_single_cp (dates : List ℕ) (tau_samples : List ℚ) : SingleCPPosterior :=
  let n : ℤ := (dates.length : ℤ)
  let tau_mean := npTruncQ (meanQ tau_samples)
  let tau_median := npTruncQ (medianQ tau_samples)
  let tau_mode := npTruncQ (modeQ tau_samples)
  { samples := tau_samples
    tau_dates := tau_samples.map (fun t =>
      if t < (dates.length : ℚ) then pyIndex dates (npTruncQ t)
      else pyIndex dates (-1))
    mean := tau_mean
    median := tau_median
    mode := tau_mode
    mean_date := if tau_mean < n then pyIndex dates tau_mean else pyIndex dates (-1)
    median_date := if tau_median < n then pyIndex dates tau_median else pyIndex dates (-1)
    mode_date := if tau_mode < n then pyIndex dates tau_mode else pyIndex dates (-1) }

/-- One entry of the `change_points` list returned for the
multiple-change-point model (source lines 258-264); the `hdi_95` field
(external `az.hdi`) is outside the embedding. -/
structure MultiCPEstimate : Type where
  index : ℕ
  samples : List ℚ
  mean : ℤ
  mean_date : Option ℕ
deriving DecidableEq, Repr

/-- The multiple-change-point branch of `get_change_point_posterior`
(source lines 249-266).  `draws` is the flattened (chain × draw) list of
`changepoints` vectors; the loop bound `changepoint_samples.shape[2]` is
the vector width, read off the array. -/
def get_multi_cp (dates : List ℕ) (draws : List (List ℚ)) : List MultiCPEstimate :=
  let ncols := (draws.headD []).length
  (List.range ncols).map (fun i =>
    let pool := draws.map (fun d => d.getD i 0)
    let cp_mean := npTruncQ (meanQ pool)
    { index := i
      samples := pool
      mean := cp_mean
      mean_date :=
        if cp_mean < (dates.length : ℤ) then pyIndex dates cp_mean
        else pyIndex dates (-1) })

/-- Typed failures of `get_change_point_posterior`: no trace yet
(source line 214), or no recognised change-point variable in the trace
(source line 268) — the specification's `PosteriorError`. -/
inductive PosteriorError : Type
  | noTrace
  | noChangePointVariable
deriving DecidableEq, Repr

/-- The value returned by `get_change_point_posterior`. -/
inductive PosteriorResult : Type
  | single (c : SingleCPPosterior)
  | multiple (cs : List MultiCPEstimate)
deriving DecidableEq, Repr

/-- A posterior trace, keyed by the variables the summarizer looks for:
the flattened `tau` pool when present, the `changepoints` draw matrix
when present. -/
structure Trace : Type where
  tau : Option (List ℚ)
  changepoints : Option (List (List ℚ))
deriving DecidableEq, Repr

/-- The dispatching summarizer `get_change_point_posterior` (source
lines 204-268): `if 'tau' in posterior`, `elif 'changepoints' in
posterior`, `else raise ValueError(...)`. -/
def get_change_point_posterior (dates : List ℕ) :
    Option Trace → Except PosteriorError PosteriorResult
  | none => Except.error PosteriorError.noTrace
  | some tr =>
    match tr.tau with
    | some ts => Except.ok (PosteriorResult.single (get_single_cp dates ts))
    | none =>
      match tr.changepoints with
      | some cps => Except.ok (PosteriorResult.multiple (get_multi_cp dates cps))
      | none => Except.error PosteriorError.noChangePointVariable

/-! ### Impact analyzer (source lines 270-324, single-change-point
branch; the claims' sources all point at this branch) -/

/-- The before window `self.data[max(0, tau_mode - window_before):tau_mode]`
(source line 299). -/
def beforeWindow (data : List ℚ) (m : ℤ) (window_before : ℕ) : List ℚ :=
  pySlice data (max 0 (m - (window_before : ℤ))) m

/-- The after window
`self.data[tau_mode:min(len(self.data), tau_mode + window_after)]`
(source line 300). -/
def afterWindow (data : List ℚ) (m : ℤ) (window_after : ℕ) : List ℚ :=
  pySlice data m (min (data.length : ℤ) (m + (window_after : ℤ)))

/-- Before- or after-window statistics of the impact dictionary
(source lines 306-315). -/
structure WindowStats : Type where
  mean : NpQ
  std : NpR
  n_obs : ℕ

/-- The impact dictionary of `calculate_impact` for the single model
(source lines 303-322). -/
structure ImpactReport : Type where
  change_point_index : ℤ
  change_point_date : Option ℕ
  before : WindowStats
  after : WindowStats
  mean_change : NpQ
  percent_change : NpQ
  volatility_change : NpR
  effect_size : NpR

/-- The single-change-point branch of `calculate_impact` (source lines
286-324): resolve the change point as the posterior mode, slice the two
windows, and form the impact metrics with NumPy arithmetic (warnings
suppressed): `percent_change = (after.mean() - before.mean()) /
before.mean() * 100` and `effect_size = (after.mean() - before.mean())
/ before.std()`. -/
noncomputable def calculate_impact (dates : List ℕ) (data : List ℚ)
    (tau_samples : List ℚ) (window_before window_after : ℕ) : ImpactReport :=
  let cp := get_single_cp dates tau_samples
  let tau_mode := cp.mode
  let before_data := beforeWindow data tau_mode window_before
  let after_data := afterWindow data tau_mode window_after
  let bm := npMeanQ before_data
  let am := npMeanQ after_data
  let bs := npStdR before_data
  let as' := npStdR after_data
  { change_point_index := tau_mode
    change_point_date := cp.mode_date
    before := ⟨bm, bs, before_data.length⟩
    after := ⟨am, as', after_data.length⟩
    mean_change := npSubQ am bm
    percent_change := npMulQ (npDivQ (npSubQ am bm) bm) (NpQ.fin 100)
    volatility_change := npSubR as' bs
    effect_size := npDivQR (npSubQ am bm) bs }

/-! ## Helper lemmas -/

theorem npMeanQ_of_ne_nil (l : List ℚ) (h : l ≠ []) : npMeanQ l = NpQ.fin (meanQ l) := by
  cases l with
  | nil => exact absurd rfl h
  | cons x xs => rfl

theorem npStdR_of_ne_nil (l : List ℚ) (h : l ≠ []) : npStdR l = NpR.fin (stdQR l) := by
  cases l with
  | nil => exact absurd rfl h
  | cons x xs => rfl

theorem popVarQ_nonneg (l : List ℚ) : 0 ≤ popVarQ l := by
  unfold popVarQ
  apply div_nonneg
  · apply List.sum_nonneg
    intro x hx
    obtain ⟨y, _, rfl⟩ := List.mem_map.mp hx
    positivity
  · positivity

theorem stdQR_pos (l : List ℚ) (h : popVarQ l ≠ 0) : 0 < stdQR l := by
  apply Real.sqrt_pos.mpr
  have := popVarQ_nonneg l
  exact_mod_cast lt_of_le_of_ne this (Ne.symm h)

end BrentOil

namespace BrentOil

theorem foldl_max_lt_iff (t : ℚ) :
    ∀ (xs : List ℚ) (x : ℚ), xs.foldl max x < t ↔ x < t ∧ ∀ y ∈ xs, y < t := by
  intro xs
  induction xs with
  | nil => intro x; simp
  | cons y ys ih =>
    intro x
    rw [List.foldl_cons, ih (max x y)]
    constructor
    · rintro ⟨hxy, hall⟩
      rcases max_lt_iff.mp hxy with ⟨hx, hy⟩
      exact ⟨hx, fun z hz => by
        rcases List.mem_cons.mp hz with h | h
        · exact h ▸ hy
        · exact hall z h⟩
    · rintro ⟨hx, hall⟩
      exact ⟨max_lt_iff.mpr ⟨hx, hall y (List.mem_cons_self y ys)⟩,
        fun z hz => hall z (List.mem_cons_of_mem y hz)⟩

theorem lt_foldl_min_iff (t : ℚ) :
    ∀ (xs : List ℚ) (x : ℚ), t < xs.foldl min x ↔ t < x ∧ ∀ y ∈ xs, t < y := by
  intro xs
  induction xs with
  | nil => intro x; simp
  | cons y ys ih =>
    intro x
    rw [List.foldl_cons, ih (min x y)]
    constructor
    · rintro ⟨hxy, hall⟩
      rcases lt_min_iff.mp hxy with ⟨hx, hy⟩
      exact ⟨hx, fun z hz => by
        rcases List.mem_cons.mp hz with h | h
        · exact h ▸ hy
        · exact hall z h⟩
    · rintro ⟨hx, hall⟩
      exact ⟨lt_min_iff.mpr ⟨hx, hall y (List.mem_cons_self y ys)⟩,
        fun z hz => hall z (List.mem_cons_of_mem y hz)⟩

theorem pyIndex_nonneg (l : List ℕ) (i : ℤ) (h0 : 0 ≤ i) (h1 : i < (l.length : ℤ)) :
    pyIndex l i = l.get? i.toNat := by
  unfold pyIndex
  rw [if_pos ⟨h0, h1⟩]

theorem pyIndex_neg_one (l : List ℕ) (h : l ≠ []) :
    pyIndex l (-1) = l.get? (l.length - 1) := by
  have hlen : 0 < l.length := List.length_pos.mpr h
  unfold pyIndex
  rw [if_neg (by omega), if_pos (by constructor <;> omega)]
  congr 1
  omega

theorem clampedDateLookup (dates : List ℕ) (h : dates ≠ []) (i : ℤ) :
    (((dates.length : ℤ) ≤ i →
        (if i < (dates.length : ℤ) then pyIndex dates i else pyIndex dates (-1)) =
          dates.get? (dates.length - 1)) ∧
     (0 ≤ i → ∃ j, j < dates.length ∧
        (if i < (dates.length : ℤ) then pyIndex dates i else pyIndex dates (-1)) =
          dates.get? j)) := by
  have hlen : 0 < dates.length := List.length_pos.mpr h
  constructor
  · intro hge
    rw [if_neg (not_lt.mpr hge), pyIndex_neg_one dates h]
  · intro h0
    by_cases hlt : i < (dates.length : ℤ)
    · exact ⟨i.toNat, by omega, by rw [if_pos hlt, pyIndex_nonneg dates i h0 hlt]⟩
    · exact ⟨dates.length - 1, by omega, by rw [if_neg hlt, pyIndex_neg_one dates h]⟩

theorem pickFold_mem {α : Type} [DecidableEq α] [LinearOrder α] (l : List α) :
    ∀ (xs : List α) (b : α), b ∈ l → (∀ x ∈ xs, x ∈ l) →
      xs.foldl
        (fun b x =>
          if l.count b < l.count x ∨ (l.count x = l.count b ∧ x < b) then x else b)
        b ∈ l := by
  intro xs
  induction xs with
  | nil => intro b hb _; exact hb
  | cons x xs ih =>
    intro b hb hxs
    rw [List.foldl_cons]
    by_cases hc : l.count b < l.count x ∨ (l.count x = l.count b ∧ x < b)
    · rw [if_pos hc]
      exact ih x (hxs x (List.mem_cons_self x xs))
        (fun y hy => hxs y (List.mem_cons_of_mem x hy))
    · rw [if_neg hc]
      exact ih b hb (fun y hy => hxs y (List.mem_cons_of_mem x hy))

theorem pickFold_count {α : Type} [DecidableEq α] [LinearOrder α] (l : List α) :
    ∀ (xs : List α) (b : α),
      l.count b ≤ l.count (xs.foldl
        (fun b x =>
          if l.count b < l.count x ∨ (l.count x = l.count b ∧ x < b) then x else b)
        b) ∧
      ∀ x ∈ xs, l.count x ≤ l.count (xs.foldl
        (fun b x =>
          if l.count b < l.count x ∨ (l.count x = l.count b ∧ x < b) then x else b)
        b) := by
  intro xs
  induction xs with
  | nil => intro b; exact ⟨le_refl _, by intro x hx; simp at hx⟩
  | cons x xs ih =>
    intro b
    rw [List.foldl_cons]
    by_cases hc : l.count b < l.count x ∨ (l.count x = l.count b ∧ x < b)
    · rw [if_pos hc]
      obtain ⟨ihb, ihall⟩ := ih x
      have hbx : l.count b ≤ l.count x := by
        rcases hc with hlt | ⟨heq, _⟩
        · exact le_of_lt hlt
        · exact le_of_eq heq.symm
      refine ⟨le_trans hbx ihb, ?_⟩
      intro y hy
      rcases List.mem_cons.mp hy with rfl | hmem
      · exact ihb
      · exact ihall y hmem
    · rw [if_neg hc]
      obtain ⟨ihb, ihall⟩ := ih b
      push_neg at hc
      refine ⟨ihb, ?_⟩
      intro y hy
      rcases List.mem_cons.mp hy with rfl | hmem
      · exact le_trans (not_lt.mp (by intro hlt; exact absurd hlt (by simpa using hc.1))) ihb
      · exact ihall y hmem

theorem modeOf_mem {α : Type} [DecidableEq α] [LinearOrder α]
    (l : List α) (d : α) (h : l ≠ []) : modeOf l d ∈ l := by
  obtain ⟨c, t, rfl⟩ := List.exists_cons_of_ne_nil h
  unfold modeOf
  exact pickFold_mem (c :: t) (c :: t) ((c :: t).headD d)
    (by simp) (fun x hx => hx)

theorem count_le_count_modeOf {α : Type} [DecidableEq α] [LinearOrder α]
    (l : List α) (d : α) (x : α) (hx : x ∈ l) :
    l.count x ≤ l.count (modeOf l d) := by
  unfold modeOf
  exact (pickFold_count l l (l.headD d)).2 x hx

/-! ## Claim C9: unrecognized model type fails before sampling -/

/-- Claim C9 (confirmed): for every `model_type` string other than
`"single"` and `"multiple"`, the `sample` dispatcher fails with the
typed `ValueError` (`ConfigError.unknownModelType`) raised at source
line 151, before any call to `pm.sample` (line 162) and before any
model is built: the `error` value carries no model. -/
theorem sample_unknown_model_type_fails (data : List ℚ) (config : ModelConfig)
    (model_type : String) (n_changepoints : ℕ)
    (h1 : model_type ≠ "single") (h2 : model_type ≠ "multiple") :
    sample data config model_type n_changepoints =
      Except.error (ConfigError.unknownModelType model_type) := by
  simp [sample, h1, h2]

/-- Witness for C9 at the concrete model type `"both"`. -/
theorem sample_unknown_model_type_fails_witness :
    ("both" : String) ≠ "single" ∧ ("both" : String) ≠ "multiple" ∧
      sample [] (default_config 0) "both" 3 =
        Except.error (ConfigError.unknownModelType "both") :=
  ⟨by decide, by decide,
    sample_unknown_model_type_fails [] (default_config 0) "both" 3
      (by decide) (by decide)⟩

/-! ## Claim C10: the prior-configuration entries are dead -/

/-- Claim C10 (confirmed): `build_single_change_point_model` never
reads the `tau_prior`, `mu_prior`, `sigma_prior` entries of the
configuration — every prior is hard-coded (source lines 58-71):
`tau ~ Normal(n/2, n/10)`, `k ~ Exponential(1/5)`,
`mu1, mu2 ~ Normal(0, 0.02)`, `sigma ~ HalfNormal(0.05)`.  Two
configurations that agree outside the prior entries therefore produce
identical models. -/
theorem build_single_ignores_prior_config (data : List ℚ) (c1 c2 : ModelConfig)
    (hmt : c1.model_type = c2.model_type) (hs : c1.sampling = c2.sampling)
    (hc : c1.convergence = c2.convergence) :
    build_single_change_point_model data c1 = build_single_change_point_model data c2 ∧
    (build_single_change_point_model data c1).tau =
      Dist.normal ((data.length : ℚ) / 2) ((data.length : ℚ) / 10) ∧
    (build_single_change_point_model data c1).k = Dist.exponential (1/5) ∧
    (build_single_change_point_model data c1).mu1 = Dist.normal 0 (1/50) ∧
    (build_single_change_point_model data c1).mu2 = Dist.normal 0 (1/50) ∧
    (build_single_change_point_model data c1).sigma = Dist.halfNormal (1/20) :=
  ⟨rfl, rfl, rfl, rfl, rfl, rfl⟩

/-- Witness for C10: two configurations that differ (only) in their
`tau_prior` entry produce the same single-change-point model. -/
theorem build_single_ignores_prior_config_witness :
    (default_config 100).tau_prior ≠
      ({ default_config 100 with
          tau_prior := ⟨"normal", [("mu", 50), ("sigma", 10)]⟩ } : ModelConfig).tau_prior ∧
    build_single_change_point_model [1, 2, 3] (default_config 100) =
      build_single_change_point_model [1, 2, 3]
        { default_config 100 with tau_prior := ⟨"normal", [("mu", 50), ("sigma", 10)]⟩ } :=
  ⟨by decide,
    (build_single_ignores_prior_config [1, 2, 3] (default_config 100)
      { default_config 100 with tau_prior := ⟨"normal", [("mu", 50), ("sigma", 10)]⟩ }
      rfl rfl rfl).1⟩

theorem npTruncQ_mono {a b : ℚ} (h : a ≤ b) : npTruncQ a ≤ npTruncQ b := by
  unfold npTruncQ
  by_cases ha : 0 ≤ a
  · rw [if_pos ha, if_pos (le_trans ha h)]
    exact Int.floor_le_floor h
  · rw [if_neg ha]
    by_cases hb : 0 ≤ b
    · rw [if_pos hb]
      calc ⌈a⌉ ≤ (0 : ℤ) := by
            rw [Int.ceil_le]
            exact_mod_cast le_of_lt (not_le.mp ha)
        _ ≤ ⌊b⌋ := Int.le_floor.mpr (by exact_mod_cast hb)
    · rw [if_neg hb]
      exact Int.ceil_le_ceil h

theorem chain_le_scanl_add (l : List ℚ) :
    ∀ a : ℚ, (∀ x ∈ l, 0 ≤ x) → List.Chain' (· ≤ ·) (List.scanl (· + ·) a l) := by
  induction l with
  | nil => intro a _; simp
  | cons x xs ih =>
    intro a h
    have hx : 0 ≤ x := h x (List.mem_cons_self x xs)
    have hrest : List.Chain' (· ≤ ·) (List.scanl (· + ·) (a + x) xs) :=
      ih (a + x) (fun y hy => h y (List.mem_cons_of_mem x hy))
    rw [List.scanl_cons, List.singleton_append]
    cases xs with
    | nil =>
      simp only [List.scanl_nil]
      exact List.chain'_pair.mpr (by linarith)
    | cons y ys =>
      rw [List.scanl_cons, List.singleton_append] at hrest ⊢
      exact List.Chain'.cons (by linarith) hrest

/-! ## Claim C3: resolved change-point indices are non-decreasing -/

/-- Claim C3 (confirmed): the deterministic
`changepoints = cumsum(taus * n).astype(int)` of the
multiple-change-point model (source lines 95-98) is non-decreasing
within every single draw: the Dirichlet fractions are nonnegative, so
their scaled cumulative sums are non-decreasing, and integer truncation
is monotone. -/
theorem resolvedChangepoints_monotone (taus : List ℚ) (n : ℕ)
    (h : ∀ x ∈ taus, 0 ≤ x) :
    List.Chain' (· ≤ ·) (resolvedChangepoints taus n) := by
  unfold resolvedChangepoints cumsumQ
  apply List.chain'_map_of_chain' npTruncQ (fun a b hab => npTruncQ_mono hab)
  apply List.Chain'.tail
  apply chain_le_scanl_add
  intro x hx
  obtain ⟨y, hy, rfl⟩ := List.mem_map.mp hx
  exact mul_nonneg (h y hy) (by positivity)

/-- Witness for C3: the Dirichlet draw `(1/4, 1/4, 1/2)` with `n = 10`
resolves to the indices `[2, 5, 10]` (note `2.5` truncates to `2`),
which are non-decreasing. -/
theorem resolvedChangepoints_monotone_witness :
    (∀ x ∈ ([1/4, 1/4, 1/2] : List ℚ), 0 ≤ x) ∧
    resolvedChangepoints [1/4, 1/4, 1/2] 10 = [2, 5, 10] ∧
    List.Chain' (· ≤ ·) (resolvedChangepoints [1/4, 1/4, 1/2] 10) :=
  ⟨by norm_num [List.forall_mem_cons],
   by norm_num [resolvedChangepoints, cumsumQ, npTruncQ],
   resolvedChangepoints_monotone [1/4, 1/4, 1/2] 10
     (by norm_num [List.forall_mem_cons])⟩

/-! ## Claim C4: convergence check semantics -/

/-- Claim C4 (confirmed): `check_convergence` (source lines 187-194)
sets `rhat_converged` exactly when the maximum per-parameter R-hat of
the summary is strictly below the configured `rhat_threshold` — for a
nonempty summary, equivalently, when every row's R-hat is strictly
below it — and `ess_sufficient` exactly when the minimum effective
sample size is strictly above the configured `ess_threshold`,
equivalently when every row's `ess_bulk` is strictly above it.  The
default thresholds (source line 40) are `1.01` and `400`; a summary
with all R-hat equal to `1.0` and all ESS above the threshold
therefore yields `rhat_converged = true` and `ess_sufficient = true`. -/
theorem check_convergence_spec (summary : List SummaryRow) (config : ModelConfig)
    (h : summary ≠ []) :
    ((check_convergence summary config).rhat_converged = true ↔
      ∀ r ∈ summary, r.r_hat < config.convergence.rhat_threshold) ∧
    ((check_convergence summary config).ess_sufficient = true ↔
      ∀ r ∈ summary, config.convergence.ess_threshold < r.ess_bulk) ∧
    (default_config 0).convergence = ⟨101/100, 400⟩ ∧
    ((∀ r ∈ summary, r.r_hat = 1) → config.convergence.rhat_threshold = 101/100 →
      (check_convergence summary config).rhat_converged = true) ∧
    ((∀ r ∈ summary, config.convergence.ess_threshold < r.ess_bulk) →
      (check_convergence summary config).ess_sufficient = true) := by
  obtain ⟨r0, rest, rfl⟩ := List.exists_cons_of_ne_nil h
  have hr : ((check_convergence (r0 :: rest) config).rhat_converged = true ↔
      ∀ r ∈ r0 :: rest, r.r_hat < config.convergence.rhat_threshold) := by
    simp only [check_convergence, List.map_cons, seriesMax, pandasLt,
      decide_eq_true_eq, foldl_max_lt_iff]
    constructor
    · rintro ⟨h0, hall⟩
      intro r hrm
      rcases List.mem_cons.mp hrm with h | h
      · exact h ▸ h0
      · exact hall _ (List.mem_map_of_mem _ h)
    · intro hall
      refine ⟨hall r0 (List.mem_cons_self r0 rest), ?_⟩
      intro y hy
      obtain ⟨s, hs, rfl⟩ := List.mem_map.mp hy
      exact hall s (List.mem_cons_of_mem r0 hs)
  have he : ((check_convergence (r0 :: rest) config).ess_sufficient = true ↔
      ∀ r ∈ r0 :: rest, config.convergence.ess_threshold < r.ess_bulk) := by
    simp only [check_convergence, List.map_cons, seriesMin, pandasGt,
      decide_eq_true_eq, lt_foldl_min_iff]
    constructor
    · rintro ⟨h0, hall⟩
      intro r hrm
      rcases List.mem_cons.mp hrm with h | h
      · exact h ▸ h0
      · exact hall _ (List.mem_map_of_mem _ h)
    · intro hall
      refine ⟨hall r0 (List.mem_cons_self r0 rest), ?_⟩
      intro y hy
      obtain ⟨s, hs, rfl⟩ := List.mem_map.mp hy
      exact hall s (List.mem_cons_of_mem r0 hs)
  refine ⟨hr, he, rfl, ?_, fun hall => he.mpr hall⟩
  intro hone hthr
  apply hr.mpr
  intro r hrm
  rw [hone r hrm, hthr]
  norm_num

/-- Witness for C4: a two-parameter summary with both R-hat exactly 1
and ESS 500 and 650, under the default thresholds (1.01 and 400). -/
theorem check_convergence_spec_witness :
    (([⟨1, 500, 1/100, 1⟩, ⟨1, 650, 1/100, 2⟩] : List SummaryRow) ≠ []) ∧
    (check_convergence [⟨1, 500, 1/100, 1⟩, ⟨1, 650, 1/100, 2⟩]
        (default_config 100)).rhat_converged = true ∧
    (check_convergence [⟨1, 500, 1/100, 1⟩, ⟨1, 650, 1/100, 2⟩]
        (default_config 100)).ess_sufficient = true := by
  have h := check_convergence_spec [⟨1, 500, 1/100, 1⟩, ⟨1, 650, 1/100, 2⟩]
    (default_config 100) (by simp)
  refine ⟨by simp, h.2.2.2.1 ?_ rfl, h.2.2.2.2 ?_⟩
  · intro r hr
    simp only [List.mem_cons, List.mem_singleton] at hr
    rcases hr with rfl | rfl | h
    · rfl
    · rfl
    · simp at h
  · intro r hr
    simp only [List.mem_cons, List.mem_singleton] at hr
    rcases hr with rfl | rfl | h
    · norm_num [default_config]
    · norm_num [default_config]
    · simp at h

theorem pySliceIdx_of_nonneg (n : ℕ) (i : ℤ) (h0 : 0 ≤ i) (h1 : i ≤ (n : ℤ)) :
    pySliceIdx n i = i.toNat := by
  unfold pySliceIdx
  rw [if_neg (by omega)]
  omega

theorem pySlice_eq_specWindow (data : List ℚ) (a b : ℤ)
    (ha0 : 0 ≤ a) (han : a ≤ (data.length : ℤ))
    (hb0 : 0 ≤ b) (hbn : b ≤ (data.length : ℤ)) :
    pySlice data a b = specWindow data a.toNat b.toNat := by
  unfold pySlice specWindow
  rw [pySliceIdx_of_nonneg data.length b hb0 hbn,
    pySliceIdx_of_nonneg data.length a ha0 han, List.drop_take]

theorem beforeWindow_spec (data : List ℚ) (m : ℤ) (wb : ℕ)
    (h0 : 0 ≤ m) (h1 : m ≤ (data.length : ℤ)) :
    beforeWindow data m wb = specWindow data (max 0 (m - (wb : ℤ))).toNat m.toNat := by
  unfold beforeWindow
  exact pySlice_eq_specWindow data (max 0 (m - (wb : ℤ))) m
    (le_max_left 0 _) (by omega) h0 h1

theorem afterWindow_spec (data : List ℚ) (m : ℤ) (wa : ℕ)
    (h0 : 0 ≤ m) (h1 : m ≤ (data.length : ℤ)) :
    afterWindow data m wa =
      specWindow data m.toNat (min (data.length : ℤ) (m + (wa : ℤ))).toNat := by
  unfold afterWindow
  exact pySlice_eq_specWindow data m (min (data.length : ℤ) (m + (wa : ℤ)))
    h0 h1 (by omega) (by omega)

/-! ## Claim C6: impact windows and impact formulas -/

/-- Claim C6 (confirmed, under the implicit well-definedness
conditions): with the resolved index `m` (the posterior mode),
`0 ≤ m ≤ n`, and nonempty windows with nonzero before-mean and nonzero
before-variance, the before window is exactly the half-open range
`[max(0, m - window_before), m)`, the after window is exactly
`[m, min(n, m + window_after))`, and

* `mean_change   = mean(after) - mean(before)`,
* `percent_change = (mean(after) - mean(before)) / mean(before) * 100`,
* `volatility_change = std(after) - std(before)`,
* `effect_size  = (mean(after) - mean(before)) / std(before)`

(source lines 296-321). -/
theorem calculate_impact_spec (dates : List ℕ) (data ts : List ℚ)
    (wb wa : ℕ) (m : ℤ) (B A : List ℚ)
    (hm : (get_single_cp dates ts).mode = m)
    (h0 : 0 ≤ m) (h1 : m ≤ (data.length : ℤ))
    (hB : beforeWindow data m wb = B) (hA : afterWindow data m wa = A)
    (hBne : B ≠ []) (hAne : A ≠ [])
    (hBm : meanQ B ≠ 0) (hBv : popVarQ B ≠ 0) :
    B = specWindow data (max 0 (m - (wb : ℤ))).toNat m.toNat ∧
    A = specWindow data m.toNat (min (data.length : ℤ) (m + (wa : ℤ))).toNat ∧
    (calculate_impact dates data ts wb wa).mean_change =
      NpQ.fin (meanQ A - meanQ B) ∧
    (calculate_impact dates data ts wb wa).percent_change =
      NpQ.fin ((meanQ A - meanQ B) / meanQ B * 100) ∧
    (calculate_impact dates data ts wb wa).volatility_change =
      NpR.fin (stdQR A - stdQR B) ∧
    (calculate_impact dates data ts wb wa).effect_size =
      NpR.fin (((meanQ A - meanQ B : ℚ) : ℝ) / stdQR B) := by
  have hstd : stdQR B ≠ 0 := ne_of_gt (stdQR_pos B hBv)
  refine ⟨by rw [← hB]; exact beforeWindow_spec data m wb h0 h1,
    by rw [← hA]; exact afterWindow_spec data m wa h0 h1, ?_, ?_, ?_, ?_⟩ <;>
    simp only [calculate_impact, hm, hB, hA,
      npMeanQ_of_ne_nil B hBne, npMeanQ_of_ne_nil A hAne,
      npStdR_of_ne_nil B hBne, npStdR_of_ne_nil A hAne]
  · rfl
  · simp [npSubQ, npDivQ, npMulQ, hBm]
  · rfl
  · simp [npSubQ, npDivQR, hstd]

/-- Witness for C6 at the series `[99, 101, 110, 110]`, pool `[2, 2]`
(mode index 2), windows 30/30: before window `[99, 101]` (mean 100,
std 1), after window `[110, 110]` (mean 110), so the percent change is
exactly `10`. -/
theorem calculate_impact_spec_witness :
    (get_single_cp [0, 1, 2, 3] [2, 2]).mode = 2 ∧
    beforeWindow [99, 101, 110, 110] 2 30 = [99, 101] ∧
    afterWindow [99, 101, 110, 110] 2 30 = [110, 110] ∧
    meanQ [99, 101] ≠ 0 ∧ popVarQ [99, 101] ≠ 0 ∧
    (calculate_impact [0, 1, 2, 3] [99, 101, 110, 110] [2, 2] 30 30).percent_change =
      NpQ.fin ((meanQ [110, 110] - meanQ [99, 101]) / meanQ [99, 101] * 100) ∧
    (calculate_impact [0, 1, 2, 3] [99, 101, 110, 110] [2, 2] 30 30).percent_change =
      NpQ.fin 10 := by
  have hm : (get_single_cp [0, 1, 2, 3] [2, 2]).mode = 2 := by
    norm_num [get_single_cp, modeQ, modeOf, npTruncQ]
  have hB : beforeWindow [99, 101, 110, 110] 2 30 = [99, 101] := by
    norm_num [beforeWindow, pySlice, pySliceIdx]; decide
  have hA : afterWindow [99, 101, 110, 110] 2 30 = [110, 110] := by
    norm_num [afterWindow, pySlice, pySliceIdx]; decide
  have hBm : meanQ [99, 101] ≠ 0 := by norm_num [meanQ]
  have hBv : popVarQ [99, 101] ≠ 0 := by norm_num [popVarQ, meanQ]
  have h := calculate_impact_spec [0, 1, 2, 3] [99, 101, 110, 110] [2, 2]
    30 30 2 [99, 101] [110, 110] hm (by norm_num) (by norm_num) hB hA
    (by simp) (by simp) hBm hBv
  refine ⟨hm, hB, hA, hBm, hBv, h.2.2.2.1, ?_⟩
  rw [h.2.2.2.1]
  norm_num [meanQ]

/-! ## Claim C1: zero before-mean gives a silent infinity, not a sentinel -/

/-- Counterexample to claim C1: on the series `[-1, 1, 2, 4]` with mode
index 2, the before window `[-1, 1]` has mean exactly `0`, and the
`percent_change` field of `calculate_impact` is the silently produced
IEEE `+inf` of NumPy's suppressed-warning division (source lines 13 and
318) — not an explicit "undefined" sentinel and not an error. -/
theorem calculate_impact_silent_infinity_counterexample :
    meanQ (beforeWindow [-1, 1, 2, 4] 2 30) = 0 ∧
    (calculate_impact [0, 1, 2, 3] [-1, 1, 2, 4] [2] 30 30).percent_change =
      NpQ.pinf := by
  have hB : beforeWindow [-1, 1, 2, 4] 2 30 = [-1, 1] := by
    norm_num [beforeWindow, pySlice, pySliceIdx]; decide
  have hA : afterWindow [-1, 1, 2, 4] 2 30 = [2, 4] := by
    norm_num [afterWindow, pySlice, pySliceIdx]; decide
  have hm : (get_single_cp [0, 1, 2, 3] [2]).mode = 2 := by
    norm_num [get_single_cp, modeQ, modeOf, npTruncQ]
  constructor
  · rw [hB]; norm_num [meanQ]
  · simp only [calculate_impact, hm, hB, hA]
    norm_num [npMeanQ, meanQ, npSubQ, npDivQ, npMulQ]

/-- Claim C1 as amended: when the before-window mean is exactly zero
(and both windows are nonempty), `calculate_impact` raises no exception
— it is a total computation — but its `percent_change` field is a
silently produced IEEE special value: `+inf` if the after-mean is
positive, `-inf` if negative, `NaN` if zero; in no case is it a finite
value, and the code has no "undefined" sentinel. -/
theorem calculate_impact_zero_before_mean (dates : List ℕ) (data ts : List ℚ)
    (wb wa : ℕ) (m : ℤ) (B A : List ℚ)
    (hm : (get_single_cp dates ts).mode = m)
    (hB : beforeWindow data m wb = B) (hA : afterWindow data m wa = A)
    (hBne : B ≠ []) (hAne : A ≠ [])
    (hBm : meanQ B = 0) :
    (0 < meanQ A →
      (calculate_impact dates data ts wb wa).percent_change = NpQ.pinf) ∧
    (meanQ A < 0 →
      (calculate_impact dates data ts wb wa).percent_change = NpQ.ninf) ∧
    (meanQ A = 0 →
      (calculate_impact dates data ts wb wa).percent_change = NpQ.nan) ∧
    (∀ x : ℚ, (calculate_impact dates data ts wb wa).percent_change ≠ NpQ.fin x) := by
  have hpc : (calculate_impact dates data ts wb wa).percent_change =
      npMulQ (npDivQ (NpQ.fin (meanQ A)) (NpQ.fin 0)) (NpQ.fin 100) := by
    simp only [calculate_impact, hm, hB, hA,
      npMeanQ_of_ne_nil B hBne, npMeanQ_of_ne_nil A hAne, hBm]
    simp [npSubQ]
  refine ⟨?_, ?_, ?_, ?_⟩
  · intro hpos
    rw [hpc]
    simp only [npDivQ, if_pos rfl, if_pos hpos]
    norm_num [npMulQ]
  · intro hneg
    rw [hpc]
    simp only [npDivQ, if_pos rfl, if_neg (by linarith : ¬(0 : ℚ) < meanQ A),
      if_pos hneg]
    norm_num [npMulQ]
  · intro hz
    rw [hpc, hz]
    norm_num [npDivQ, npMulQ]
  · intro x
    rcases lt_trichotomy (meanQ A) 0 with hlt | heq | hgt
    · rw [hpc]
      simp only [npDivQ, if_pos rfl, if_neg (by linarith : ¬(0 : ℚ) < meanQ A),
        if_pos hlt]
      norm_num [npMulQ]
      simp
    · rw [hpc, heq]
      norm_num [npDivQ, npMulQ]
      simp
    · rw [hpc]
      simp only [npDivQ, if_pos rfl, if_pos hgt]
      norm_num [npMulQ]
      simp

/-- Witness for C1 (amended) on the series `[-1, 1, 2, 4]` with mode 2:
before mean is zero, after mean is `3 > 0`, and the percent change is
`+inf`. -/
theorem calculate_impact_zero_before_mean_witness :
    (get_single_cp [0, 1, 2, 3] [2]).mode = 2 ∧
    beforeWindow [-1, 1, 2, 4] 2 30 = [-1, 1] ∧
    afterWindow [-1, 1, 2, 4] 2 30 = [2, 4] ∧
    meanQ [-1, 1] = 0 ∧ (0 : ℚ) < meanQ [2, 4] ∧
    (calculate_impact [0, 1, 2, 3] [-1, 1, 2, 4] [2] 30 30).percent_change =
      NpQ.pinf := by
  have hm : (get_single_cp [0, 1, 2, 3] [2]).mode = 2 := by
    norm_num [get_single_cp, modeQ, modeOf, npTruncQ]
  have hB : beforeWindow [-1, 1, 2, 4] 2 30 = [-1, 1] := by
    norm_num [beforeWindow, pySlice, pySliceIdx]; decide
  have hA : afterWindow [-1, 1, 2, 4] 2 30 = [2, 4] := by
    norm_num [afterWindow, pySlice, pySliceIdx]; decide
  have hBm : meanQ [-1, 1] = 0 := by norm_num [meanQ]
  have hApos : (0 : ℚ) < meanQ [2, 4] := by norm_num [meanQ]
  have h := calculate_impact_zero_before_mean [0, 1, 2, 3] [-1, 1, 2, 4] [2]
    30 30 2 [-1, 1] [2, 4] hm hB hA (by simp) (by simp) hBm
  exact ⟨hm, hB, hA, hBm, hApos, h.1 hApos⟩

/-! ## Claim C2: clamping of resolved indices and date lookups -/

/-- Counterexample to claim C2: on the five-date series
`[10, 20, 30, 40, 50]` and the tau pool `[7]`, the summarizer's
returned `mean` index is `7`, which does not lie within `[0, n-1] = [0, 4]`
— the indices themselves are never clamped (source lines 225-230,
237-239); only the date lookup is guarded, so `mean_date` is the last
date `50`. -/
theorem get_single_cp_unclamped_index_counterexample :
    (get_single_cp [10, 20, 30, 40, 50] [7]).mean = 7 ∧
    ([10, 20, 30, 40, 50] : List ℕ).length = 5 ∧
    ¬((get_single_cp [10, 20, 30, 40, 50] [7]).mean ≤ 5 - 1) ∧
    (get_single_cp [10, 20, 30, 40, 50] [7]).mean_date = some 50 := by
  refine ⟨?_, rfl, ?_, ?_⟩
  · norm_num [get_single_cp, meanQ, npTruncQ]
  · norm_num [get_single_cp, meanQ, npTruncQ]
  · norm_num [get_single_cp, meanQ, npTruncQ, pyIndex]
    decide

/-- Claim C2 as amended: the returned numeric `mean`, `median`, `mode`
indices are not clamped and may lie outside `[0, n-1]`; the *date*
fields are clamped above — whenever a resolved index is at or beyond
`n`, the corresponding date is the last available date (source lines
240-242), and whenever a resolved index is nonnegative, the
corresponding date lookup hits a valid position `j < n`, so it is never
out of range. -/
theorem get_single_cp_date_clamping (dates : List ℕ) (ts : List ℚ)
    (h : dates ≠ []) :
    (((dates.length : ℤ) ≤ (get_single_cp dates ts).mean →
        (get_single_cp dates ts).mean_date = dates.get? (dates.length - 1)) ∧
      (0 ≤ (get_single_cp dates ts).mean → ∃ j, j < dates.length ∧
        (get_single_cp dates ts).mean_date = dates.get? j)) ∧
    (((dates.length : ℤ) ≤ (get_single_cp dates ts).median →
        (get_single_cp dates ts).median_date = dates.get? (dates.length - 1)) ∧
      (0 ≤ (get_single_cp dates ts).median → ∃ j, j < dates.length ∧
        (get_single_cp dates ts).median_date = dates.get? j)) ∧
    (((dates.length : ℤ) ≤ (get_single_cp dates ts).mode →
        (get_single_cp dates ts).mode_date = dates.get? (dates.length - 1)) ∧
      (0 ≤ (get_single_cp dates ts).mode → ∃ j, j < dates.length ∧
        (get_single_cp dates ts).mode_date = dates.get? j)) := by
  refine ⟨?_, ?_, ?_⟩
  · simpa only [get_single_cp] using clampedDateLookup dates h (npTruncQ (meanQ ts))
  · simpa only [get_single_cp] using clampedDateLookup dates h (npTruncQ (medianQ ts))
  · simpa only [get_single_cp] using clampedDateLookup dates h (npTruncQ (modeQ ts))

/-- Witness for C2 (amended) at the concrete series `[10, ..., 50]` and
pool `[7]` (resolved indices all `7 ≥ n = 5`, dates clamped to `50`). -/
theorem get_single_cp_date_clamping_witness :
    (([10, 20, 30, 40, 50] : List ℕ) ≠ []) ∧
    ((5 : ℤ) ≤ (get_single_cp [10, 20, 30, 40, 50] [7]).mean) ∧
    (get_single_cp [10, 20, 30, 40, 50] [7]).mean_date =
      ([10, 20, 30, 40, 50] : List ℕ).get? (5 - 1) := by
  have h := get_single_cp_date_clamping [10, 20, 30, 40, 50] [7] (by simp)
  have hmean : (get_single_cp [10, 20, 30, 40, 50] [7]).mean = 7 := by
    norm_num [get_single_cp, meanQ, npTruncQ]
  exact ⟨by simp, by rw [hmean]; norm_num, h.1.1 (by rw [hmean]; norm_num)⟩

/-! ## Claim C5: summarizer point statistics -/

/-- Counterexample to claim C5: on the tau pool
`[0.6, 0.6, 2.7, 2.7, 2.7]` the code returns `mean = 1` (the pool mean
`1.86` truncated by `int()`, not rounded to the nearest index `2`),
`median = 2` (the pool median is `2.7`, but `int()` truncates it), and
`mode = 2` (`scipy.stats.mode` picks the most frequent *raw* value
`2.7`, then `int()` truncates; the most frequent value among the
*rounded* draws `[1, 1, 3, 3, 3]` would be `3`). -/
theorem get_single_cp_statistics_counterexample :
    (get_single_cp [10, 20, 30, 40, 50] [3/5, 3/5, 27/10, 27/10, 27/10]).mean = 1 ∧
    roundNearest (meanQ [3/5, 3/5, 27/10, 27/10, 27/10]) = 2 ∧ ((1 : ℤ) ≠ 2) ∧
    (get_single_cp [10, 20, 30, 40, 50] [3/5, 3/5, 27/10, 27/10, 27/10]).median = 2 ∧
    medianQ [3/5, 3/5, 27/10, 27/10, 27/10] = 27/10 ∧ (((2 : ℤ) : ℚ) ≠ 27/10) ∧
    (get_single_cp [10, 20, 30, 40, 50] [3/5, 3/5, 27/10, 27/10, 27/10]).mode = 2 ∧
    modeOf (([3/5, 3/5, 27/10, 27/10, 27/10] : List ℚ).map roundNearest) (0 : ℤ) = 3 ∧
    ((2 : ℤ) ≠ 3) := by
  refine ⟨?_, ?_, by decide, ?_, ?_, by norm_num, ?_, ?_, by decide⟩
  · norm_num [get_single_cp, meanQ, npTruncQ]
  · norm_num [roundNearest, meanQ]
  · norm_num [get_single_cp, medianQ, sortQ, insertSorted, npTruncQ]
  · norm_num [medianQ, sortQ, insertSorted]
  · norm_num [get_single_cp, modeQ, modeOf, List.count_cons, npTruncQ]
  · norm_num [roundNearest, modeOf, List.count_cons]

/-- Claim C5 as amended: the returned `mean` is the pool mean truncated
toward zero (`int()`, not rounded to nearest), the returned `median` is
the pool median truncated toward zero, and the returned `mode` is the
most frequent value among the *raw, unrounded* draws (smallest in case
of a tie, as `scipy.stats.mode` does), truncated toward zero: the mode
candidate belongs to the pool and its multiplicity is maximal. -/
theorem get_single_cp_statistics (dates : List ℕ) (ts : List ℚ) (h : ts ≠ []) :
    (get_single_cp dates ts).mean = npTruncQ (meanQ ts) ∧
    (get_single_cp dates ts).median = npTruncQ (medianQ ts) ∧
    (get_single_cp dates ts).mode = npTruncQ (modeQ ts) ∧
    modeQ ts ∈ ts ∧
    (∀ x ∈ ts, ts.count x ≤ ts.count (modeQ ts)) :=
  ⟨rfl, rfl, rfl, modeOf_mem ts 0 h, fun x hx => count_le_count_modeOf ts 0 x hx⟩

/-- Witness for C5 (amended) on the pool `[0.6, 0.6, 2.7, 2.7, 2.7]`. -/
theorem get_single_cp_statistics_witness :
    (([3/5, 3/5, 27/10, 27/10, 27/10] : List ℚ) ≠ []) ∧
    (get_single_cp [10, 20, 30, 40, 50] [3/5, 3/5, 27/10, 27/10, 27/10]).mean =
      npTruncQ (meanQ [3/5, 3/5, 27/10, 27/10, 27/10]) ∧
    modeQ [3/5, 3/5, 27/10, 27/10, 27/10] ∈
      ([3/5, 3/5, 27/10, 27/10, 27/10] : List ℚ) := by
  have h := get_single_cp_statistics [10, 20, 30, 40, 50]
    [3/5, 3/5, 27/10, 27/10, 27/10] (by simp)
  exact ⟨by simp, h.1, h.2.2.2.1⟩

/-! ## Claim C7: number and order of multi-change-point estimates -/

/-- Counterexample to claim C7: with `n_changepoints = 1` the model's
`taus ~ Dirichlet(ones(2))` has two components (source line 94) and the
deterministic `changepoints = cumsum(taus * n)` keeps both cumulative
sums (source line 97), e.g. the draw `(0.3, 0.7)` with `n = 10`
resolves to `[3, 10]`; the summarizer loop over
`changepoint_samples.shape[2]` (source line 254) then returns 2
estimates, not the configured 1. -/
theorem get_multi_cp_count_counterexample :
    (build_multiple_change_points_model (List.replicate 10 (0 : ℚ)) 1).n_changepoints = 1 ∧
    (build_multiple_change_points_model (List.replicate 10 (0 : ℚ)) 1).taus_dim = 2 ∧
    resolvedChangepoints [3/10, 7/10] 10 = [3, 10] ∧
    (get_multi_cp [0, 1, 2, 3, 4, 5, 6, 7, 8, 9] [[3, 10]]).length = 2 ∧
    (2 : ℕ) ≠ 1 :=
  ⟨rfl, rfl, by norm_num [resolvedChangepoints, cumsumQ, npTruncQ], rfl, by decide⟩

/-- Claim C7 as amended (the code returns `k + 1` estimates, not `k`):
for the model configured with `k` change points, the `taus` vector and
the resolved `changepoints` vector both have `k + 1` components (the
last being the cumulative total, approximately `n`), and the summarizer
returns exactly `k + 1` estimates whose `index` fields are
`0, 1, ..., k` in increasing position order. -/
theorem get_multi_cp_returns_kplus1 (dates : List ℕ) (data : List ℚ) (k : ℕ)
    (taus : List ℚ) (n : ℕ) (draws : List (List ℚ))
    (htaus : taus.length = (build_multiple_change_points_model data k).taus_dim)
    (hdraws : (draws.headD []).length = k + 1) :
    (build_multiple_change_points_model data k).taus_dim = k + 1 ∧
    (resolvedChangepoints taus n).length = k + 1 ∧
    (get_multi_cp dates draws).length = k + 1 ∧
    (get_multi_cp dates draws).map (fun e => e.index) = List.range (k + 1) := by
  rw [List.headD_eq_head?_getD] at hdraws
  refine ⟨rfl, ?_, ?_, ?_⟩
  · simp only [resolvedChangepoints, cumsumQ, List.length_map, List.length_tail,
      List.length_scanl]
    simpa using htaus
  · simp [get_multi_cp, hdraws]
  · simp only [get_multi_cp, List.headD_eq_head?_getD, hdraws, List.map_map]
    exact List.map_id'' (fun x => rfl) _

/-- Witness for C7 (amended) with `k = 1`, the Dirichlet draw
`(0.3, 0.7)` and a one-draw trace. -/
theorem get_multi_cp_returns_kplus1_witness :
    (([3/10, 7/10] : List ℚ).length =
      (build_multiple_change_points_model (List.replicate 10 (0 : ℚ)) 1).taus_dim) ∧
    ((([[3, 10]] : List (List ℚ)).headD []).length = 1 + 1) ∧
    (resolvedChangepoints [3/10, 7/10] 10).length = 1 + 1 ∧
    (get_multi_cp [0, 1, 2, 3, 4, 5, 6, 7, 8, 9] [[3, 10]]).length = 1 + 1 ∧
    (get_multi_cp [0, 1, 2, 3, 4, 5, 6, 7, 8, 9] [[3, 10]]).map (fun e => e.index) =
      List.range (1 + 1) := by
  have h := get_multi_cp_returns_kplus1 [0, 1, 2, 3, 4, 5, 6, 7, 8, 9]
    (List.replicate 10 (0 : ℚ)) 1 [3/10, 7/10] 10 [[3, 10]] rfl rfl
  exact ⟨rfl, rfl, h.2.1, h.2.2.1, h.2.2.2⟩

/-! ## Claim C8: missing change-point variables give a typed error -/

/-- Claim C8 (confirmed): on a trace that contains neither a `tau` nor
a `changepoints` variable, `get_change_point_posterior` raises the
typed `ValueError("No change point variables found in trace")` (source
line 268) — it never returns a result. -/
theorem posterior_missing_variables_fails (dates : List ℕ) (tr : Trace)
    (htau : tr.tau = none) (hcp : tr.changepoints = none) :
    get_change_point_posterior dates (some tr) =
      Except.error PosteriorError.noChangePointVariable := by
  obtain ⟨tau, cps⟩ := tr
  cases htau
  cases hcp
  rfl

/-- Witness for C8 at the concrete empty trace. -/
theorem posterior_missing_variables_fails_witness :
    (Trace.mk none none).tau = none ∧ (Trace.mk none none).changepoints = none ∧
    get_change_point_posterior [0, 1, 2] (some (Trace.mk none none)) =
      Except.error PosteriorError.noChangePointVariable :=
  ⟨rfl, rfl, posterior_missing_variables_fails [0, 1, 2] (Trace.mk none none) rfl rfl⟩

end BrentOil
